import Mathlib

/-!
Verification development for the News-Webscraper repository.

The repository scrapes local news sites (scrapers/capital_gazette_scraper.py,
scrapers/hyattsville_wire_scraper.py) and backfills derived link-count columns
(scrapers/backfill_capg_links.py, scrapers/backfill_hywire.py,
scrapers/backfill_baltimore_links.py).  This file gives a shallow embedding of
the data model and the operations of that code: the Python standard-library URL
functions the code calls (`urllib.parse.urlsplit` / `urlparse` netloc handling,
`urljoin`), the internal/external link classifier, the listing-page discoverer,
the article extractors, the fresh-ingest driver loop, and the backfill driver
loop.  HTML parsing (BeautifulSoup) and network transport are external
collaborators; a fetched page is therefore modelled by the data the code reads
off it (paragraph texts, anchor hrefs, image descriptors, meta fields), and a
fetch is modelled as a function from a URL to such a page (or a failure).

Machine-level caveats of the embedding, stated once here:
* Python strings are Unicode; `str.strip()` / `str.split()` whitespace and the
  regex class `\d` are modelled by their ASCII parts, which is exact on all
  ASCII input (the URLs and patterns in this repository are ASCII).
* Python exceptions are modelled by `Except Unit`; the only exception relevant
  to the modelled pure code is the `ValueError` that `urllib.parse.urlsplit`
  raises for a network location containing an unmatched square bracket
  ("Invalid IPv6 URL"), which is raised by `urljoin`/`urlparse` on a malformed
  href.
-/

namespace NewsScraper

/-- ASCII whitespace as recognised by Python `str.strip()` and `str.split()`. -/
def isPySpace (c : Char) : Bool :=
  c = ' ' || c = '\t' || c = '\n' || c = '\r' || c = '\x0b' || c = '\x0c'

/-- Python `str.strip()` on a character list: drop whitespace at both ends. -/
def stripChars (cs : List Char) : List Char :=
  ((cs.dropWhile isPySpace).reverse.dropWhile isPySpace).reverse

/-- Python `str.strip()`. -/
def pyStrip (s : String) : String := String.mk (stripChars s.data)

/-- Helper for `pySplit`: `cur` is the reversed current word. -/
def pySplitAux : List Char → List Char → List String
  | [], cur => if cur = [] then [] else [String.mk cur.reverse]
  | c :: cs, cur =>
      if isPySpace c then
        if cur = [] then pySplitAux cs []
        else String.mk cur.reverse :: pySplitAux cs []
      else pySplitAux cs (c :: cur)

/-- Python `str.split()` with no argument: split on runs of whitespace,
with no empty words. -/
def pySplit (s : String) : List String := pySplitAux s.data []

/-- Python `" ".join(...)`. -/
def joinSpace : List String → String
  | [] => ""
  | [s] => s
  | s :: rest => s ++ " " ++ joinSpace rest

/-- Does the second list start with the first one? -/
def leadsWith : List Char → List Char → Bool
  | [], _ => true
  | _ :: _, [] => false
  | p :: ps, c :: cs => p = c && leadsWith ps cs

/-- Drop a literal leading pattern, or fail. -/
def dropLead : List Char → List Char → Option (List Char)
  | [], cs => some cs
  | _ :: _, [] => none
  | p :: ps, c :: cs => if p = c then dropLead ps cs else none

/-- Split a character list at the first occurrence of `c`
(Python `str.partition`), returning the parts before and after it. -/
def splitAtFirst (c : Char) : List Char → Option (List Char × List Char)
  | [] => none
  | x :: xs =>
      if x = c then some ([], xs)
      else match splitAtFirst c xs with
        | none => none
        | some (a, b) => some (x :: a, b)

/-! ## The `urllib.parse` model

These definitions follow CPython `Lib/urllib/parse.py` (`urlsplit`,
`urlunsplit`, `urljoin`); the scrapers call `urlparse` only for its `netloc`
component, which agrees with `urlsplit`. -/

/-- `scheme_chars` of `urllib.parse`. -/
def isSchemeChar (c : Char) : Bool :=
  c.isAlpha || c.isDigit || c = '+' || c = '-' || c = '.'

/-- CPython removes tab, CR and LF characters from the URL before splitting
(`_UNSAFE_URL_BYTES_TO_REMOVE`). -/
def cleanUrl (cs : List Char) : List Char :=
  cs.filter (fun c => !(c = '\t' || c = '\r' || c = '\n'))

/-- Scheme detection of `urlsplit`: a valid scheme before the first `:`
is split off and lowercased, otherwise the default scheme is used and the
URL is left whole. -/
def detectScheme (cs : List Char) (dflt : List Char) : List Char × List Char :=
  match splitAtFirst ':' cs with
  | none => (dflt, cs)
  | some (before, after) =>
      match before with
      | [] => (dflt, cs)
      | c0 :: rest =>
          if c0.isAlpha && (c0 :: rest).all isSchemeChar then
            ((c0 :: rest).map Char.toLower, after)
          else (dflt, cs)

/-- Characters ending the network-location component (`_splitnetloc`). -/
def netlocStop (c : Char) : Bool := c = '/' || c = '?' || c = '#'

/-- Result of `urllib.parse.urlsplit`. -/
structure SplitResult where
  scheme : String
  netloc : String
  path : String
  query : String
  fragment : String
deriving DecidableEq

/-- Split fragment (first) and query off the part of the URL after the
network location, as `urlsplit` does. -/
def mkSplit (scheme netloc rest : List Char) : SplitResult :=
  let fr := match splitAtFirst '#' rest with
    | none => (rest, ([] : List Char))
    | some (a, b) => (a, b)
  let pq := match splitAtFirst '?' fr.1 with
    | none => (fr.1, ([] : List Char))
    | some (a, b) => (a, b)
  ⟨String.mk scheme, String.mk netloc, String.mk pq.1, String.mk pq.2, String.mk fr.2⟩

/-- `urllib.parse.urlsplit url defaultScheme`.  Fails (Python `ValueError`,
"Invalid IPv6 URL") when the network location contains an unmatched square
bracket. -/
def urlsplit (url defaultScheme : String) : Except Unit SplitResult :=
  let cs := cleanUrl url.data
  let ds := cleanUrl defaultScheme.data
  let sr := detectScheme cs ds
  match sr.2 with
  | '/' :: '/' :: r =>
      let netloc := r.takeWhile (fun c => !netlocStop c)
      let rest := r.dropWhile (fun c => !netlocStop c)
      if (netloc.contains '[' && !netloc.contains ']')
          || (netloc.contains ']' && !netloc.contains '[') then
        .error ()
      else
        .ok (mkSplit sr.1 netloc rest)
  | rest => .ok (mkSplit sr.1 [] rest)

/-- `urllib.parse.urlunsplit`. -/
def urlunsplit (r : SplitResult) : String :=
  let u1 :=
    if r.netloc != "" || leadsWith "//".data r.path.data then
      "//" ++ r.netloc ++
        (if r.path != "" && !leadsWith "/".data r.path.data then "/" ++ r.path else r.path)
    else r.path
  let u2 := if r.scheme != "" then r.scheme ++ ":" ++ u1 else u1
  let u3 := if r.query != "" then u2 ++ "?" ++ r.query else u2
  if r.fragment != "" then u3 ++ "#" ++ r.fragment else u3

/-- `urllib.parse.uses_relative`. -/
def usesRelative : List String :=
  ["", "ftp", "http", "gopher", "nntp", "imap", "wais", "file", "https",
   "shttp", "mms", "prospero", "rtsp", "rtspu", "sftp", "svn", "svn+ssh",
   "ws", "wss"]

/-- `urllib.parse.uses_netloc`. -/
def usesNetloc : List String :=
  ["", "ftp", "http", "gopher", "nntp", "telnet", "imap", "wais", "file",
   "mms", "https", "shttp", "snews", "prospero", "rtsp", "rtspu", "rtmp",
   "sftp", "svn", "svn+ssh", "ws", "wss"]

/-- Python `str.split('/')`: split on every slash, keeping empty segments. -/
def splitOnSlash : List Char → List (List Char)
  | [] => [[]]
  | c :: cs =>
      match splitOnSlash cs with
      | [] => [[]]
      | seg :: segs => if c = '/' then [] :: seg :: segs else (c :: seg) :: segs

/-- Python `'/'.join(...)` on character-list segments. -/
def joinSlash : List (List Char) → List Char
  | [] => []
  | [s] => s
  | s :: rest => s ++ '/' :: joinSlash rest

/-- Helper for `filterInterior`: drop empty segments except the last one. -/
def filterInteriorAux : List (List Char) → List (List Char)
  | [] => []
  | [last] => [last]
  | s :: rest => if s = [] then filterInteriorAux rest else s :: filterInteriorAux rest

/-- CPython `urljoin`: `segments[1:-1] = filter(None, segments[1:-1])` —
drop empty segments other than the first and the last.  CPython runs this
only in the non-root-relative branch (when the href path does not start with
`/`), so a root-relative path keeps its interior empty segments. -/
def filterInterior : List (List Char) → List (List Char)
  | [] => []
  | first :: rest => first :: filterInteriorAux rest

/-- The `..` / `.` resolving loop of CPython `urljoin`; `acc` is the
resolved path in reverse, popping on `..` is a no-op when it is empty. -/
def resolveSegments (acc : List (List Char)) : List (List Char) → List (List Char)
  | [] => acc.reverse
  | s :: ss =>
      if s = ['.', '.'] then resolveSegments (acc.drop 1) ss
      else if s = ['.'] then resolveSegments acc ss
      else resolveSegments (s :: acc) ss

/-- `urllib.parse.urljoin base url`, following CPython.  Fails exactly when
`urlsplit` fails on the base or on the href. -/
def urljoin (base url : String) : Except Unit String :=
  if base = "" then .ok url
  else if url = "" then .ok base
  else
    match urlsplit base "" with
    | .error e => .error e
    | .ok b =>
      match urlsplit url b.scheme with
      | .error e => .error e
      | .ok r =>
        if r.scheme != b.scheme || !usesRelative.contains r.scheme then .ok url
        else if usesNetloc.contains r.scheme && r.netloc != "" then
          .ok (urlunsplit r)
        else
          let netloc := if usesNetloc.contains r.scheme then b.netloc else r.netloc
          if r.path = "" then
            let query := if r.query = "" then b.query else r.query
            .ok (urlunsplit ⟨r.scheme, netloc, b.path, query, r.fragment⟩)
          else
            let baseParts0 := splitOnSlash b.path.data
            let baseParts := match baseParts0.getLast? with
              | some [] => baseParts0
              | _ => baseParts0.dropLast
            let segments :=
              if leadsWith "/".data r.path.data then splitOnSlash r.path.data
              else filterInterior (baseParts ++ splitOnSlash r.path.data)
            let resolved := resolveSegments [] segments
            let resolved := match segments.getLast? with
              | some ['.'] => resolved ++ [[]]
              | some ['.', '.'] => resolved ++ [[]]
              | _ => resolved
            let joined := joinSlash resolved
            let path := if joined = [] then "/".data else joined
            .ok (urlunsplit ⟨r.scheme, netloc, String.mk path, r.query, r.fragment⟩)

/-! ## The link classifier

From `backfill_capg_links.count_links` / `backfill_hywire.count_links` and the
identical inline loop of `capital_gazette_scraper.parse_article`:

    base_domain = urlparse(article_url).netloc
    internal = external = 0
    for a in anchors:
        href = a["href"]
        full = urljoin(article_url, href)
        dom = urlparse(full).netloc
        if dom == "" or dom == base_domain: internal += 1
        else: external += 1
    return internal, external

The anchors of the CSS selection are modelled by their href strings. -/

/-- The network location of a resolved href:
`urlparse(urljoin(article_url, href)).netloc`. -/
def resolvedDomain (article_url href : String) : Except Unit String :=
  match urljoin article_url href with
  | .error e => .error e
  | .ok full =>
    match urlsplit full "" with
    | .error e => .error e
    | .ok p => .ok p.netloc

/-- One iteration of the classifier loop. -/
def classifyStep (base_domain article_url : String) (acc : Nat × Nat) (href : String) :
    Except Unit (Nat × Nat) :=
  match resolvedDomain article_url href with
  | .error e => .error e
  | .ok dom =>
      if dom = "" || dom = base_domain then .ok (acc.1 + 1, acc.2)
      else .ok (acc.1, acc.2 + 1)

/-- `count_links`: the internal/external link classifier.  There is no
try/except inside the loop, so a failing href aborts the whole call. -/
def count_links (hrefs : List String) (article_url : String) : Except Unit (Nat × Nat) :=
  match urlsplit article_url "" with
  | .error e => .error e
  | .ok base => hrefs.foldlM (classifyStep base.netloc article_url) (0, 0)

/-- Is an `Except Unit` computation a success? -/
def exOk {α : Type} : Except Unit α → Bool
  | .ok _ => true
  | .error _ => false

instance {ε α : Type} [DecidableEq ε] [DecidableEq α] : DecidableEq (Except ε α) := fun a b =>
  match a, b with
  | .ok x, .ok y =>
      if h : x = y then .isTrue (by rw [h]) else .isFalse (fun hh => h (Except.ok.inj hh))
  | .ok _, .error _ => .isFalse (fun hh => Except.noConfusion hh)
  | .error _, .ok _ => .isFalse (fun hh => Except.noConfusion hh)
  | .error e, .error f =>
      if h : e = f then .isTrue (by rw [h]) else .isFalse (fun hh => h (Except.error.inj hh))

/-! ## The listing discoverer

From `capital_gazette_scraper.get_all_page_links`:

    links: set[str] = set()
    pattern = re.compile(r"^https://www\.capitalgazette\.com/\d{4}/\d{2}/\d{2}/[^/]+/$")
    for a in soup.select("a[href]"):
        href = a["href"]
        if href.startswith("/"): href = urljoin(section_url, href)
        if href.startswith("https://www.capitalgazette.com/"):
            href = href.split("#")[0]
            if pattern.search(href): links.add(href)
    return sorted(links)

The anchors of the page are modelled by their href strings, and the
set-then-`sorted` construction by insertion into a strictly sorted list. -/

/-- Consume exactly `n` regex `\d` digits and then a literal `/`
(`\d` is modelled by ASCII digits; the site URLs are ASCII). -/
def digitsThenSlash : Nat → List Char → Option (List Char)
  | 0, '/' :: rest => some rest
  | 0, _ => none
  | _ + 1, [] => none
  | n + 1, c :: rest => if c.isDigit then digitsThenSlash n rest else none

/-- The Capital Gazette article-path regular expression
`^https://www\.capitalgazette\.com/\d{4}/\d{2}/\d{2}/[^/]+/$` applied by
`pattern.search` (the `^` anchor makes `search` agree with `match`; `$` also
matches just before a trailing newline). -/
def cgPattern (s : String) : Bool :=
  match dropLead "https://www.capitalgazette.com/".data s.data with
  | none => false
  | some r1 =>
    match digitsThenSlash 4 r1 with
    | none => false
    | some r2 =>
      match digitsThenSlash 2 r2 with
      | none => false
      | some r3 =>
        match digitsThenSlash 2 r3 with
        | none => false
        | some r4 =>
          let seg := r4.takeWhile (fun c => c ≠ '/')
          let rest := r4.dropWhile (fun c => c ≠ '/')
          seg ≠ [] && (rest = ['/'] || rest = ['/', '\n'])

/-- Python `href.split("#")[0]`: strip the URL fragment. -/
def stripFragment (s : String) : String :=
  String.mk (s.data.takeWhile (fun c => c ≠ '#'))

/-- Lexicographic (code-point) comparison of character lists: the order of
Python `str` comparison, hence of Python `sorted` on URLs. -/
def listLtB : List Char → List Char → Bool
  | [], [] => false
  | [], _ :: _ => true
  | _ :: _, [] => false
  | a :: as, b :: bs =>
      if a.toNat < b.toNat then true
      else if b.toNat < a.toNat then false
      else listLtB as bs

/-- Lexicographic comparison of strings (Python `<` on `str`). -/
def strLtB (a b : String) : Bool := listLtB a.data b.data

/-- The strict lexicographic order on strings, as a proposition. -/
def strLt (a b : String) : Prop := strLtB a b = true

instance (a b : String) : Decidable (strLt a b) := by
  unfold strLt; infer_instance

/-- Insert into a strictly sorted duplicate-free list; this is the model
of adding to the Python `set` whose elements are returned with `sorted`. -/
def insertSortedNoDup (x : String) : List String → List String
  | [] => [x]
  | y :: ys =>
      if x = y then y :: ys
      else if strLtB x y then x :: y :: ys
      else y :: insertSortedNoDup x ys

/-- The per-anchor transform of `get_all_page_links`: resolve the href when it
starts with `/`, then keep it when it carries the site prefix, is
fragment-stripped and matches the article pattern. -/
def cgCollect (section_url href : String) : Except Unit (Option String) :=
  match (if leadsWith "/".data href.data then urljoin section_url href else .ok href) with
  | .error e => .error e
  | .ok href1 =>
      if leadsWith "https://www.capitalgazette.com/".data href1.data then
        let href2 := stripFragment href1
        .ok (if cgPattern href2 then some href2 else none)
      else .ok none

/-- One anchor of the discovery loop: add the retained URL (if any) to the
collected set. -/
def collectStep (section_url : String) (acc : List String) (href : String) :
    Except Unit (List String) :=
  match cgCollect section_url href with
  | .error e => .error e
  | .ok none => .ok acc
  | .ok (some s) => .ok (insertSortedNoDup s acc)

/-- `get_all_page_links` for Capital Gazette (body of the single-listing-page
loop), over the href strings of the page's anchors.  An unresolvable
root-relative href raises out of the function as in the source. -/
def get_all_page_links (anchors : List String) (section_url : String) :
    Except Unit (List String) :=
  anchors.foldlM (collectStep section_url) []

/-- Modelled from the spec (section 4.2), for comparison with
`get_all_page_links`: "for each [anchor], resolve relative hrefs against the
listing URL, strip URL fragments, and retain only those matching a
source-specific article-path pattern", returned sorted and deduplicated. -/
def discover_spec (anchors : List String) (listing_url : String) : List String :=
  anchors.foldl
    (fun acc href =>
      match urljoin listing_url href with
      | .error _ => acc
      | .ok full =>
          let c := stripFragment full
          if cgPattern c then insertSortedNoDup c acc else acc)
    []

/-- Python slice `l[:n]` for an integer `n` (negative counts from the end). -/
def pySliceTo (n : Int) (l : List String) : List String :=
  if 0 ≤ n then l.take n.toNat else l.take (l.length - (-n).toNat)

/-- The per-section cap of `main`:
`if limit_per_section: article_links = article_links[:limit_per_section]` —
`None` and `0` are falsy, so both leave the list whole. -/
def applyLimit (limit : Option Int) (links : List String) : List String :=
  match limit with
  | none => links
  | some n => if n = 0 then links else pySliceTo n links

/-! ## The article extractors

BeautifulSoup is an external collaborator, so a fetched article page is
modelled by the data the extractor reads off it: the text of the
`h1.entry-title` element when present, the text of each body paragraph in
document order, the hrefs of the anchors nested in those paragraphs, the
already-built image descriptors (the `get_image_dims` secondary fetch is
inside that external step), and the `article:published_time` meta content.
`p.get_text(strip=True)` is modelled as stripping the paragraph text. -/

/-- An image descriptor as built by `capital_gazette_scraper.parse_article`
(`img` entries have a source, `svg` entries have the serialized markup). -/
structure ImageInfo where
  src : Option String
  width : Option Nat
  height : Option Nat
  kind : String
  svg_html : Option String
deriving DecidableEq

/-- A fetched Capital Gazette article page, as read by `parse_article`. -/
structure CgPage where
  headlineTag : Option String
  paragraphs : List String
  paraHrefs : List String
  images : List ImageInfo
  metaDate : Option String
  adDivCount : Nat
deriving DecidableEq

/-- The dictionary returned by `capital_gazette_scraper.parse_article`. -/
structure CgRecord where
  url : String
  headline : String
  headline_len : Nat
  pub_date : Option String
  word_count : Nat
  num_links : Nat
  internal_links : Nat
  external_links : Nat
  num_images : Nat
  images : List ImageInfo
  num_ads_est : Nat
  article_text : String
deriving DecidableEq

/-- `capital_gazette_scraper.parse_article` on a fetched page: headline with
empty-string default, body text joined with single spaces from the
per-paragraph stripped texts, `word_count = len(text.split())`, link counts
via the classifier loop (which can raise on a malformed body href), image and
ad-div counts, and the meta publish date. -/
def cg_parse_article (page : CgPage) (url : String) : Except Unit CgRecord :=
  let headline := (page.headlineTag.map pyStrip).getD ""
  let text := joinSpace (page.paragraphs.map pyStrip)
  match count_links page.paraHrefs url with
  | .error e => .error e
  | .ok ie =>
      .ok { url := url
            headline := headline
            headline_len := (pySplit headline).length
            pub_date := page.metaDate
            word_count := (pySplit text).length
            num_links := page.paraHrefs.length
            internal_links := ie.1
            external_links := ie.2
            num_images := page.images.length
            images := page.images
            num_ads_est := page.adDivCount
            article_text := text }

/-- A fetched Hyattsville Wire article page, as read by its `parse_article`. -/
structure HwImage where
  src : String
  width : Option String
  height : Option String
deriving DecidableEq

structure HwPage where
  headlineTag : Option String
  paragraphs : List String
  paraHrefs : List String
  images : List HwImage
  metaDate : Option String
deriving DecidableEq

/-- The dictionary returned by `hyattsville_wire_scraper.parse_article`. -/
structure HwRecord where
  url : String
  headline : String
  headline_len : Nat
  pub_date : Option String
  word_count : Nat
  num_links : Nat
  num_images : Nat
  images : List HwImage
  ad_count : Nat
  text : String
  date_scraped : String
  html_content : String
deriving DecidableEq

/-- `hyattsville_wire_scraper.parse_article`.  The selenium ad-counting block
is an external rendering collaborator modelled by `render` (the ad total and
the rendered page source, or a failure); the block is wrapped in
`try/finally` with no `except`, so a failure there propagates out of
`parse_article` after `driver.quit()`.  `now` stands for
`datetime.utcnow().isoformat()`. -/
def hw_parse_article (page : HwPage) (url now : String)
    (render : Except Unit (Nat × String)) : Except Unit HwRecord :=
  let headline := (page.headlineTag.map pyStrip).getD ""
  let text := joinSpace (page.paragraphs.map pyStrip)
  match render with
  | .error e => .error e
  | .ok ah =>
      .ok { url := url
            headline := headline
            headline_len := (pySplit headline).length
            pub_date := page.metaDate
            word_count := (pySplit text).length
            num_links := page.paraHrefs.length
            num_images := page.images.length
            images := page.images
            ad_count := ah.1
            text := text
            date_scraped := now
            html_content := ah.2 }

/-! ## The fresh-ingest driver

From `capital_gazette_scraper.main` (the Hyattsville Wire `main` has the same
structure), starting after listing discovery:

    existing_urls = set();  (seeded from SELECT url FROM ...)
    new_articles_count = 0
    for each section:
        article_links = get_all_page_links(...)
        if limit_per_section: article_links = article_links[:limit_per_section]
        for url in article_links:
            if url in existing_urls: continue
            try:
                data = parse_article(url)
                INSERT ... ON CONFLICT (url) DO NOTHING
                existing_urls.add(url); new_articles_count += 1
            except Exception: log and continue

The store is modelled by its rows keyed by URL, fetching by a function from a
URL to a fetched page (or a transport failure), and the per-section link lists
by the output of discovery. -/

/-- Fetch and parse one article: `get_soup` (transport, may fail) composed
with `parse_article` (may fail on a malformed body href). -/
def fetchParse (pages : String → Except Unit CgPage) (url : String) : Except Unit CgRecord :=
  match pages url with
  | .error e => .error e
  | .ok p => cg_parse_article p url

/-- `INSERT ... ON CONFLICT (url) DO NOTHING` on the modelled store. -/
def upsertIfAbsent (store : List (String × CgRecord)) (url : String) (r : CgRecord) :
    List (String × CgRecord) :=
  if url ∈ store.map Prod.fst then store else store ++ [(url, r)]

/-- The driver state: the persistent store, the in-memory known-URL set, and
the `new_articles_count` counter. -/
structure IngestState where
  store : List (String × CgRecord)
  existing : List String
  newCount : Nat

/-- The body of the per-article loop: skip known URLs; otherwise try to fetch
and parse, and on success insert, mark known and count — any failure is
logged and the item skipped. -/
def processUrl (pages : String → Except Unit CgPage) (st : IngestState) (url : String) :
    IngestState :=
  if url ∈ st.existing then st
  else
    match fetchParse pages url with
    | .error _ => st
    | .ok r =>
        { store := upsertIfAbsent st.store url r
          existing := url :: st.existing
          newCount := st.newCount + 1 }

/-- One section of the fresh-ingest run: cap the discovered links and process
each in order. -/
def sectionStep (pages : String → Except Unit CgPage) (limit : Option Int)
    (st : IngestState) (links : List String) : IngestState :=
  (applyLimit limit links).foldl (processUrl pages) st

/-- A whole fresh-ingest run over the per-section discovered link lists:
seed the known-URL set from the store, process every section, and return the
final store together with `new_articles_count`. -/
def mainRun (sections : List (List String)) (pages : String → Except Unit CgPage)
    (store0 : List (String × CgRecord)) (limit : Option Int) :
    List (String × CgRecord) × Nat :=
  let stF := sections.foldl (sectionStep pages limit)
    { store := store0, existing := store0.map Prod.fst, newCount := 0 }
  (stF.store, stF.newCount)

/-! ## The backfill driver

From `backfill_capg_links.main` / `backfill_hywire.main`:

    SELECT id, url FROM <table>
    for id_, url in rows:
        try:
            soup = get_soup(url)
            i, e = count_links(soup, url)
            UPDATE <table> SET internal_links = i, external_links = e WHERE id = id_
        except Exception: log and continue

A stored row carries the fields relevant to the frame property; a live page is
modelled by the hrefs its body anchors produce (`pages` may fail, standing for
a fetch failure). -/

/-- A stored article row (the columns the backfill scripts touch plus
representative untouched ones). -/
structure StoredRow where
  id : Nat
  url : String
  sectionLabel : String
  headline : String
  article_text : String
  word_count : Nat
  internal_links : Nat
  external_links : Nat
deriving DecidableEq

/-- `UPDATE ... SET internal_links, external_links WHERE id = i`. -/
def patchLinks (rows : List StoredRow) (i ic ec : Nat) : List StoredRow :=
  rows.map fun r =>
    if r.id = i then { r with internal_links := ic, external_links := ec } else r

/-- Re-derive the link counts for one URL from the live page. -/
def backfillDerive (pages : String → Except Unit (List String)) (url : String) :
    Except Unit (Nat × Nat) :=
  match pages url with
  | .error e => .error e
  | .ok hrefs => count_links hrefs url

/-- The body of the backfill loop for one `(id, url)` row: on any failure the
row is skipped, otherwise its link columns are patched. -/
def backfillStep (pages : String → Except Unit (List String))
    (rows : List StoredRow) (p : Nat × String) : List StoredRow :=
  match backfillDerive pages p.2 with
  | .error _ => rows
  | .ok ie => patchLinks rows p.1 ie.1 ie.2

/-- A whole backfill run: read the `(id, url)` snapshot, then patch row by
row. -/
def backfillRun (pages : String → Except Unit (List String))
    (rows0 : List StoredRow) : List StoredRow :=
  (rows0.map fun r => (r.id, r.url)).foldl (backfillStep pages) rows0

/-- The per-row patch the backfill run is expected to amount to. -/
def backfillPatchRow (pages : String → Except Unit (List String)) (r : StoredRow) :
    StoredRow :=
  match backfillDerive pages r.url with
  | .error _ => r
  | .ok ie => { r with internal_links := ie.1, external_links := ie.2 }

/-- The effect of one backfill snapshot entry on one row: rows with the
entry's id get the entry's freshly derived link counts, other rows are left
alone (and a failed derivation changes nothing). -/
def applyPair (pages : String → Except Unit (List String)) (r : StoredRow)
    (p : Nat × String) : StoredRow :=
  match backfillDerive pages p.2 with
  | .error _ => r
  | .ok ie =>
      if r.id = p.1 then { r with internal_links := ie.1, external_links := ie.2 } else r

/-- The known-URL invariant of the fresh-ingest driver: every URL in the
in-memory set is present in the store. -/
def KnownInv (st : IngestState) : Prop :=
  ∀ v ∈ st.existing, v ∈ st.store.map Prod.fst

/-! ## Model validation

Spot checks of the embedded `urllib.parse` model and of the discoverer
against the behavior of the Python originals on concrete inputs. -/

example : pySplit "a b  c" = ["a", "b", "c"] := by decide
example : urlsplit "https://site.example/a/b" "" =
    .ok ⟨"https", "site.example", "/a/b", "", ""⟩ := by decide
example : urljoin "https://site.example/a/b" "/section/story" =
    .ok "https://site.example/section/story" := by decide
example : urljoin "https://site.example/a/b" "mailto:john@x.com" =
    .ok "mailto:john@x.com" := by decide
example : resolvedDomain "https://site.example/a/b" "mailto:john@x.com" = .ok "" := by decide
example : resolvedDomain "https://site.example/a/" "https://www.site.example/x" =
    .ok "www.site.example" := by decide
example : resolvedDomain "https://site.example/a/" "http://[bad" = .error () := by decide
example : urljoin "https://www.capitalgazette.com/news/politics/" "../../2024/01/02/story-one/" =
    .ok "https://www.capitalgazette.com/2024/01/02/story-one/" := by decide
example : count_links ["/a", "/b", "local.html", "https://ext1.example/x", "https://ext2.example/y"]
    "https://site.example/art/" = .ok (3, 2) := by decide

example : urljoin "https://site.example/art/" "local.html" =
    .ok "https://site.example/art/local.html" := by decide
example : urljoin "https://site.example/art/" "//cdn.example/img" =
    .ok "https://cdn.example/img" := by decide
example : urljoin "https://site.example/a/b?q=1#f" "?x=2" =
    .ok "https://site.example/a/b?x=2" := by decide
example : urljoin "https://site.example/a/b" "" = .ok "https://site.example/a/b" := by decide
example : urljoin "https://site.example/a/b" "#frag" =
    .ok "https://site.example/a/b#frag" := by decide
example : urljoin "https://site.example/a/b" "javascript:void(0)" =
    .ok "javascript:void(0)" := by decide
example : urljoin "https://site.example/a/b" "HTTPS://Other.Example/X" =
    .ok "https://Other.Example/X" := by decide
example : urljoin "https://site.example/a/b/" "./c" =
    .ok "https://site.example/a/b/c" := by decide
example : urljoin "https://site.example/a/b/" ".." = .ok "https://site.example/a/" := by decide
example : urljoin "https://site.example/a/b/" "../" = .ok "https://site.example/a/" := by decide
example : urljoin "https://site.example/" "c/./d/../e" =
    .ok "https://site.example/c/e" := by decide
example : urljoin "https://site.example/a;p?q#f" "x" = .ok "https://site.example/x" := by decide
example : urljoin "https://site.example" "x" = .ok "https://site.example/x" := by decide
example : urljoin "https://site.example/a/b" "ftp://files.example/f" =
    .ok "ftp://files.example/f" := by decide
example : urljoin "https://site.example/a/b" "tel:+1234" = .ok "tel:+1234" := by decide
example : urljoin "https://site.example/a/" "/x//y/z" =
    .ok "https://site.example/x//y/z" := by decide
example : urljoin "https://site.example/a//b/" "c/d" =
    .ok "https://site.example/a/b/c/d" := by decide
example : urljoin "https://site.example/a/" "x//y/../z" =
    .ok "https://site.example/a/x/z" := by decide
example : urljoin "https://site.example/a/" "/x//../y" =
    .ok "https://site.example/x/y" := by decide
example : urljoin "https://site.example/a//b/" "../c" =
    .ok "https://site.example/a/c" := by decide
example : urljoin "https://www.capitalgazette.com/news/politics/" "/2024/01/02//story/" =
    .ok "https://www.capitalgazette.com/2024/01/02//story/" := by decide

example : cgPattern "https://www.capitalgazette.com/2024/01/02/some-story/" = true := by decide
example : cgPattern "https://www.capitalgazette.com/news/politics/" = false := by decide
example : cgPattern "https://www.capitalgazette.com/2024/01/02/a/b/" = false := by decide
example : get_all_page_links
    ["/2024/01/02/beta/#frag", "https://www.capitalgazette.com/2024/01/02/alpha/",
     "/2024/01/02/beta/", "https://other.example/2024/01/02/x/", "/about/"]
    "https://www.capitalgazette.com/news/politics/" =
    .ok ["https://www.capitalgazette.com/2024/01/02/alpha/",
         "https://www.capitalgazette.com/2024/01/02/beta/"] := by decide
example : discover_spec ["../../2024/01/02/story-one/"]
    "https://www.capitalgazette.com/news/politics/" =
    ["https://www.capitalgazette.com/2024/01/02/story-one/"] := by decide
example : get_all_page_links ["../../2024/01/02/story-one/"]
    "https://www.capitalgazette.com/news/politics/" = .ok [] := by decide
example : get_all_page_links ["/2024/01/02//story/"]
    "https://www.capitalgazette.com/news/politics/" = .ok [] := by decide

/-! ## Classifier lemmas and claims C1–C4, C6 -/

theorem exceptBindOk {α β : Type} (a : α) (f : α → Except Unit β) :
    (do let x ← Except.ok a; f x) = f a := rfl

theorem exceptBindError {α β : Type} (f : α → Except Unit β) :
    (do let x ← (Except.error () : Except Unit α); f x) = Except.error () := rfl

/-- Accumulator form of the classifier loop: a successful run adds exactly
one to one of the two counters per anchor, and every anchor it saw resolved
successfully. -/
theorem classify_foldlM_ok (url bd : String) :
    ∀ (hrefs : List String) (acc res : Nat × Nat),
      List.foldlM (classifyStep bd url) acc hrefs = .ok res →
      res.1 + res.2 = acc.1 + acc.2 + hrefs.length ∧
        ∀ s ∈ hrefs, exOk (resolvedDomain url s) = true := by
  intro hrefs
  induction hrefs with
  | nil =>
      intro acc res h
      simp only [List.foldlM] at h
      cases h
      simp
  | cons a as ih =>
      intro acc res h
      simp only [List.foldlM] at h
      cases hra : resolvedDomain url a with
      | error e =>
          exfalso
          simp only [classifyStep, hra] at h
          cases h
      | ok dom =>
          simp only [classifyStep, hra] at h
          by_cases hc : (dom = "" || dom = bd) = true
          · rw [if_pos hc] at h
            rw [exceptBindOk] at h
            obtain ⟨h1, h2⟩ := ih _ _ h
            refine ⟨?_, ?_⟩
            · simp only [List.length_cons]
              omega
            · intro s hs
              rcases List.mem_cons.mp hs with rfl | hs
              · simp [exOk, hra]
              · exact h2 s hs
          · rw [if_neg hc] at h
            rw [exceptBindOk] at h
            obtain ⟨h1, h2⟩ := ih _ _ h
            refine ⟨?_, ?_⟩
            · simp only [List.length_cons]
              omega
            · intro s hs
              rcases List.mem_cons.mp hs with rfl | hs
              · simp [exOk, hra]
              · exact h2 s hs

/-- The classifier loop short-circuits: if any anchor in the list fails to
resolve, the whole fold fails. -/
theorem classify_foldlM_error (url bd : String) :
    ∀ (hrefs : List String) (acc : Nat × Nat),
      (∃ s ∈ hrefs, resolvedDomain url s = .error ()) →
      List.foldlM (classifyStep bd url) acc hrefs = .error () := by
  intro hrefs
  induction hrefs with
  | nil =>
      intro acc h
      obtain ⟨s, hs, _⟩ := h
      exact absurd hs (List.not_mem_nil s)
  | cons a as ih =>
      intro acc h
      simp only [List.foldlM]
      cases hra : resolvedDomain url a with
      | error e =>
          cases e
          simp only [classifyStep, hra]
          rfl
      | ok dom =>
          have hex : ∃ s ∈ as, resolvedDomain url s = .error () := by
            obtain ⟨s, hs, herr⟩ := h
            rcases List.mem_cons.mp hs with rfl | hs
            · rw [hra] at herr
              cases herr
            · exact ⟨s, hs, herr⟩
          simp only [classifyStep, hra]
          by_cases hc : (dom = "" || dom = bd) = true
          · rw [if_pos hc, exceptBindOk]
            exact ih _ hex
          · rw [if_neg hc, exceptBindOk]
            exact ih _ hex

/-- Claim C1: for every anchor href and article URL, the link classifier
resolves the href against the article URL and labels it internal exactly when
the resolved network location is empty or equals the article URL's network
location character for character (so a `www.`-prefixed host against a
non-`www` base is external — no subdomain normalization), and external
otherwise. -/
theorem claim1_classifier_rule (url href dom : String) (b : SplitResult)
    (hb : urlsplit url "" = .ok b)
    (hd : resolvedDomain url href = .ok dom) :
    count_links [href] url =
      .ok (if dom = "" ∨ dom = b.netloc then (1, 0) else (0, 1)) := by
  unfold count_links
  rw [hb]
  simp only [List.foldlM, classifyStep, hd]
  by_cases h1 : dom = ""
  · simp [h1]
  · by_cases h2 : dom = b.netloc
    · simp [h1, h2]
    · simp [h1, h2]

/-- Witness for C1, on the spec's own example: an href resolving to
`https://www.site.example/x` against base domain `site.example` is labelled
external. -/
theorem claim1_witness :
    count_links ["https://www.site.example/x"] "https://site.example/a/" = .ok (0, 1) := by
  have h := claim1_classifier_rule "https://site.example/a/" "https://www.site.example/x"
    "www.site.example" ⟨"https", "site.example", "/a/", "", ""⟩ (by decide) (by decide)
  rw [if_neg (by decide)] at h
  exact h

/-- Claim C2: whenever the link classifier produces counts, the internal
count plus the external count equals the number of anchors that successfully
resolved — every counted anchor lands in exactly one of the two buckets. -/
theorem claim2_partition (hrefs : List String) (url : String) (i e : Nat)
    (h : count_links hrefs url = .ok (i, e)) :
    i + e = (hrefs.filter (fun s => exOk (resolvedDomain url s))).length := by
  unfold count_links at h
  cases hb : urlsplit url "" with
  | error x =>
      rw [hb] at h
      cases h
  | ok base =>
      rw [hb] at h
      obtain ⟨h1, h2⟩ := classify_foldlM_ok url base.netloc hrefs (0, 0) (i, e) h
      have hf : hrefs.filter (fun s => exOk (resolvedDomain url s)) = hrefs :=
        List.filter_eq_self.mpr h2
      rw [hf]
      simpa using h1

/-- Witness for C2 at a concrete page: one internal and one external link,
both resolved. -/
theorem claim2_witness :
    1 + 1 = ((["/a", "https://ext.example/x"]).filter
      (fun s => exOk (resolvedDomain "https://site.example/p/" s))).length :=
  claim2_partition ["/a", "https://ext.example/x"] "https://site.example/p/" 1 1 (by decide)

/-- Counterexample to claim C3: the classifier does not catch a malformed
href.  On a malformed first href the whole call fails — the second, perfectly
resolvable anchor is not classified and no counts are produced, instead of the
malformed anchor being skipped. -/
theorem claim3_counterexample :
    count_links ["http://[bad", "/x"] "https://site.example/a/" = .error () := by decide

/-- Claim C3 as amended: a malformed (unresolvable) href is not caught inside
the link classifier; it makes the whole classification call fail, so no
anchor of the sequence is counted.  (The error is absorbed only by the
per-article handler of the driver, which skips the whole article.) -/
theorem claim3_amended (hrefs : List String) (url : String)
    (h : ∃ s ∈ hrefs, resolvedDomain url s = .error ()) :
    count_links hrefs url = .error () := by
  unfold count_links
  cases hb : urlsplit url "" with
  | error x =>
      cases x
      rfl
  | ok base => exact classify_foldlM_error url base.netloc hrefs (0, 0) h

/-- Witness for the amended C3. -/
theorem claim3_amended_witness :
    count_links ["/ok", "http://]oops"] "https://news.example/a/" = .error () :=
  claim3_amended ["/ok", "http://]oops"] "https://news.example/a/" (by decide)

/-- Counterexample to claim C4: a failure of the ad-count enrichment step
(the selenium rendering block) does fail the whole Hyattsville Wire
extraction — `parse_article` returns no record at all, rather than a record
with an absent estimate (its `ad_count` field is not even optional). -/
theorem claim4_counterexample :
    hw_parse_article
      ⟨some "Title", ["Body paragraph."], ["/x"], [], some "2024-01-02T00:00:00Z"⟩
      "https://hyattsvillewire.com/2024/01/02/x/" "2025-01-01T00:00:00"
      (.error ()) = .error () := by decide

/-- Claim C4 as amended: a failure inside the ad-count enrichment step
propagates out of `parse_article` and aborts that article's extraction
(it is then absorbed by the driver's per-article handler), while a successful
rendering always yields a record. -/
theorem claim4_amended :
    (∀ (page : HwPage) (url now : String),
      hw_parse_article page url now (.error ()) = .error ()) ∧
    (∀ (page : HwPage) (url now : String) (n : Nat) (html : String),
      exOk (hw_parse_article page url now (.ok (n, html))) = true) := by
  constructor
  · intro page url now
    rfl
  · intro page url now n html
    rfl

/-- Claim C6: for every extracted article (either scraper), the body text is
the per-paragraph-trimmed paragraph texts joined by single spaces, and
`word_count` is recomputed as `len(body_text.split())` — in particular the
irregular-whitespace text `"a b  c"` counts 3 words. -/
theorem claim6_word_count (page : CgPage) (url : String) (r : CgRecord)
    (h : cg_parse_article page url = .ok r) :
    (r.article_text = joinSpace (page.paragraphs.map pyStrip) ∧
      r.word_count = (pySplit r.article_text).length) ∧
    (∀ (hp : HwPage) (hurl hnow : String) (n : Nat) (html : String) (hr : HwRecord),
      hw_parse_article hp hurl hnow (.ok (n, html)) = .ok hr →
      hr.text = joinSpace (hp.paragraphs.map pyStrip) ∧
        hr.word_count = (pySplit hr.text).length) ∧
    (pySplit "a b  c").length = 3 := by
  refine ⟨?_, ?_, by decide⟩
  · unfold cg_parse_article at h
    cases hc : count_links page.paraHrefs url with
    | error x =>
        rw [hc] at h
        cases h
    | ok ie =>
        rw [hc] at h
        cases h
        exact ⟨rfl, rfl⟩
  · intro hp hurl hnow n html hr hh
    unfold hw_parse_article at hh
    cases hh
    exact ⟨rfl, rfl⟩

/-- Witness for C6 at a concrete page with irregular whitespace and padded
paragraphs. -/
theorem claim6_witness :
    (("Hello  world Second para" = joinSpace (["Hello  world", " Second para "].map pyStrip) ∧
      (4 : Nat) = (pySplit "Hello  world Second para").length) ∧
    (∀ (hp : HwPage) (hurl hnow : String) (n : Nat) (html : String) (hr : HwRecord),
      hw_parse_article hp hurl hnow (.ok (n, html)) = .ok hr →
      hr.text = joinSpace (hp.paragraphs.map pyStrip) ∧
        hr.word_count = (pySplit hr.text).length) ∧
    (pySplit "a b  c").length = 3) := by
  have h := claim6_word_count
    ⟨some " Title ", ["Hello  world", " Second para "], [], [], none, 0⟩
    "https://www.capitalgazette.com/2024/01/02/x/"
    ⟨"https://www.capitalgazette.com/2024/01/02/x/", "Title", 1, none, 4, 0, 0, 0, 0, [],
      0, "Hello  world Second para"⟩
    (by decide)
  exact h

/-! ## Order lemmas for the sorted-set model, and claims C7 and C10 -/

theorem listLtB_irrefl : ∀ cs : List Char, listLtB cs cs = false := by
  intro cs
  induction cs with
  | nil => rfl
  | cons c cs ih => simp [listLtB, ih]

theorem listLtB_trans : ∀ as bs cs : List Char,
    listLtB as bs = true → listLtB bs cs = true → listLtB as cs = true := by
  intro as
  induction as with
  | nil =>
      intro bs cs h1 h2
      cases bs with
      | nil => simp [listLtB] at h1
      | cons b bs =>
          cases cs with
          | nil => simp [listLtB] at h2
          | cons c cs => rfl
  | cons a as ih =>
      intro bs cs h1 h2
      cases bs with
      | nil => simp [listLtB] at h1
      | cons b bs =>
          cases cs with
          | nil => simp [listLtB] at h2
          | cons c cs =>
              simp only [listLtB] at h1 h2 ⊢
              by_cases hab : a.toNat < b.toNat
              · by_cases hbc : b.toNat < c.toNat
                · simp [show a.toNat < c.toNat from by omega]
                · by_cases hcb : c.toNat < b.toNat
                  · simp [hbc, hcb] at h2
                  · simp [show a.toNat < c.toNat from by omega]
              · by_cases hba : b.toNat < a.toNat
                · simp [hab, hba] at h1
                · by_cases hbc : b.toNat < c.toNat
                  · simp [show a.toNat < c.toNat from by omega]
                  · by_cases hcb : c.toNat < b.toNat
                    · simp [hbc, hcb] at h2
                    · have hac : ¬ a.toNat < c.toNat := by omega
                      have hca : ¬ c.toNat < a.toNat := by omega
                      rw [if_neg hab, if_neg hba] at h1
                      rw [if_neg hbc, if_neg hcb] at h2
                      rw [if_neg hac, if_neg hca]
                      exact ih bs cs h1 h2

theorem listLtB_total : ∀ as bs : List Char,
    as = bs ∨ listLtB as bs = true ∨ listLtB bs as = true := by
  intro as
  induction as with
  | nil =>
      intro bs
      cases bs with
      | nil => exact Or.inl rfl
      | cons b bs => exact Or.inr (Or.inl rfl)
  | cons a as ih =>
      intro bs
      cases bs with
      | nil => exact Or.inr (Or.inr rfl)
      | cons b bs =>
          by_cases hab : a.toNat < b.toNat
          · exact Or.inr (Or.inl (by simp [listLtB, hab]))
          · by_cases hba : b.toNat < a.toNat
            · exact Or.inr (Or.inr (by simp [listLtB, hba]))
            · have hEq : a = b := by
                have hn : a.toNat = b.toNat := by omega
                exact Char.ext (UInt32.ext hn)
              subst hEq
              rcases ih bs with h | h | h
              · exact Or.inl (by rw [h])
              · exact Or.inr (Or.inl (by simp [listLtB, hab, h]))
              · exact Or.inr (Or.inr (by simp [listLtB, hab, h]))

theorem strLt_irrefl (a : String) : ¬ strLt a a := by
  simp [strLt, strLtB, listLtB_irrefl]

theorem strLt_trans {a b c : String} (h1 : strLt a b) (h2 : strLt b c) : strLt a c :=
  listLtB_trans a.data b.data c.data h1 h2

theorem strLt_total (a b : String) : a = b ∨ strLt a b ∨ strLt b a := by
  rcases listLtB_total a.data b.data with h | h | h
  · left
    cases a with
    | mk da =>
        cases b with
        | mk db => exact congrArg String.mk h
  · exact Or.inr (Or.inl h)
  · exact Or.inr (Or.inr h)

theorem mem_insertSortedNoDup (x a : String) : ∀ l : List String,
    a ∈ insertSortedNoDup x l ↔ a = x ∨ a ∈ l := by
  intro l
  induction l with
  | nil => simp [insertSortedNoDup]
  | cons y ys ih =>
      unfold insertSortedNoDup
      by_cases h1 : x = y
      · subst h1
        rw [if_pos rfl]
        simp [List.mem_cons]
      · rw [if_neg h1]
        by_cases h2 : strLtB x y = true
        · rw [if_pos h2]
          simp [List.mem_cons]
        · rw [if_neg h2]
          simp only [List.mem_cons, ih]
          tauto

theorem pairwise_insertSortedNoDup (x : String) : ∀ l : List String,
    l.Pairwise strLt → (insertSortedNoDup x l).Pairwise strLt := by
  intro l
  induction l with
  | nil =>
      intro _
      simp [insertSortedNoDup]
  | cons y ys ih =>
      intro hp
      rw [List.pairwise_cons] at hp
      obtain ⟨hy, hys⟩ := hp
      unfold insertSortedNoDup
      by_cases h1 : x = y
      · rw [if_pos h1]
        exact List.pairwise_cons.mpr ⟨hy, hys⟩
      · rw [if_neg h1]
        by_cases h2 : strLtB x y = true
        · rw [if_pos h2]
          refine List.pairwise_cons.mpr ⟨?_, List.pairwise_cons.mpr ⟨hy, hys⟩⟩
          intro z hz
          rcases List.mem_cons.mp hz with rfl | hz
          · exact h2
          · exact strLt_trans h2 (hy z hz)
        · rw [if_neg h2]
          have hyx : strLt y x := by
            rcases strLt_total x y with h | h | h
            · exact absurd h h1
            · exact absurd h h2
            · exact h
          refine List.pairwise_cons.mpr ⟨?_, ih hys⟩
          intro z hz
          rcases (mem_insertSortedNoDup x z ys).mp hz with rfl | hz
          · exact hyx
          · exact hy z hz

/-- Characterization of the discovery fold: a successful run yields a
strictly sorted list whose members are exactly the retained anchors (on top
of the accumulator). -/
theorem collect_foldlM_char (section_url : String) :
    ∀ (anchors : List String) (acc out : List String),
      anchors.foldlM (collectStep section_url) acc = .ok out →
      (acc.Pairwise strLt → out.Pairwise strLt) ∧
      ∀ s, s ∈ out ↔ s ∈ acc ∨
        ∃ href ∈ anchors, cgCollect section_url href = .ok (some s) := by
  intro anchors
  induction anchors with
  | nil =>
      intro acc out h
      simp only [List.foldlM] at h
      cases h
      refine ⟨id, ?_⟩
      intro s
      simp
  | cons a as ih =>
      intro acc out h
      simp only [List.foldlM] at h
      cases hca : cgCollect section_url a with
      | error e =>
          cases e
          rw [show collectStep section_url acc a = .error () from by
            simp [collectStep, hca]] at h
          rw [exceptBindError] at h
          exact Except.noConfusion h
      | ok o =>
          cases o with
          | none =>
              rw [show collectStep section_url acc a = .ok acc from by
                simp [collectStep, hca]] at h
              rw [exceptBindOk] at h
              obtain ⟨hp, hm⟩ := ih acc out h
              refine ⟨hp, ?_⟩
              intro s
              rw [hm s]
              constructor
              · rintro (hs | ⟨href, hh, hcc⟩)
                · exact Or.inl hs
                · exact Or.inr ⟨href, List.mem_cons_of_mem a hh, hcc⟩
              · rintro (hs | ⟨href, hh, hcc⟩)
                · exact Or.inl hs
                · rcases List.mem_cons.mp hh with rfl | hh
                  · rw [hca] at hcc
                    injection hcc with h1
                    exact Option.noConfusion h1
                  · exact Or.inr ⟨href, hh, hcc⟩
          | some s0 =>
              rw [show collectStep section_url acc a = .ok (insertSortedNoDup s0 acc) from by
                simp [collectStep, hca]] at h
              rw [exceptBindOk] at h
              obtain ⟨hp, hm⟩ := ih _ out h
              refine ⟨fun hacc => hp (pairwise_insertSortedNoDup s0 acc hacc), ?_⟩
              intro s
              rw [hm s, mem_insertSortedNoDup]
              constructor
              · rintro ((rfl | hs) | ⟨href, hh, hcc⟩)
                · exact Or.inr ⟨a, List.mem_cons_self a as, by rw [hca]⟩
                · exact Or.inl hs
                · exact Or.inr ⟨href, List.mem_cons_of_mem a hh, hcc⟩
              · rintro (hs | ⟨href, hh, hcc⟩)
                · exact Or.inl (Or.inr hs)
                · rcases List.mem_cons.mp hh with rfl | hh
                  · rw [hca] at hcc
                    injection hcc with h1
                    injection h1 with h2
                    exact Or.inl (Or.inl h2.symm)
                  · exact Or.inr ⟨href, hh, hcc⟩

/-- Claim C10: a positive per-listing cap `n` keeps exactly the `n`
lexicographically smallest discovered URLs (the discovered list is sorted, so
its `n`-prefix precedes everything dropped), while a cap of `0` is falsy in
`if limit_per_section:` and so is treated as no cap at all, keeping every
discovered URL. -/
theorem claim10_cap (n : Int) (anchors : List String) (url : String) (out : List String)
    (hn : 0 < n) (hout : get_all_page_links anchors url = .ok out) :
    (applyLimit (some n) out = out.take n.toNat ∧
      ∀ x ∈ out.take n.toNat, ∀ y ∈ out.drop n.toNat, strLt x y) ∧
    ∀ links : List String, applyLimit (some 0) links = links := by
  have hpw : out.Pairwise strLt :=
    (collect_foldlM_char url anchors [] out hout).1 List.Pairwise.nil
  refine ⟨⟨?_, ?_⟩, ?_⟩
  · simp only [applyLimit, pySliceTo]
    rw [if_neg (by omega), if_pos (by omega)]
  · have hsplit := List.take_append_drop n.toNat out
    rw [← hsplit] at hpw
    exact fun x hx y hy => (List.pairwise_append.mp hpw).2.2 x hx y hy
  · intro links
    rfl

/-- Witness for C10 with cap 1 over a two-article listing. -/
theorem claim10_witness :
    (applyLimit (some 1)
        ["https://www.capitalgazette.com/2024/07/08/aa/",
         "https://www.capitalgazette.com/2024/07/08/bb/"] =
      (["https://www.capitalgazette.com/2024/07/08/aa/",
        "https://www.capitalgazette.com/2024/07/08/bb/"] : List String).take (1 : Int).toNat ∧
      ∀ x ∈ (["https://www.capitalgazette.com/2024/07/08/aa/",
        "https://www.capitalgazette.com/2024/07/08/bb/"] : List String).take (1 : Int).toNat,
        ∀ y ∈ (["https://www.capitalgazette.com/2024/07/08/aa/",
          "https://www.capitalgazette.com/2024/07/08/bb/"] : List String).drop (1 : Int).toNat,
          strLt x y) ∧
    ∀ links : List String, applyLimit (some 0) links = links :=
  claim10_cap 1
    ["https://www.capitalgazette.com/2024/07/08/bb/",
     "https://www.capitalgazette.com/2024/07/08/aa/"]
    "https://www.capitalgazette.com/sports/"
    ["https://www.capitalgazette.com/2024/07/08/aa/",
     "https://www.capitalgazette.com/2024/07/08/bb/"]
    (by decide) (by decide)

/-! ## Fresh-ingest driver lemmas and claims C5 and C8 -/

theorem upsert_mem_self (store : List (String × CgRecord)) (url : String) (r : CgRecord) :
    url ∈ (upsertIfAbsent store url r).map Prod.fst := by
  unfold upsertIfAbsent
  by_cases h : url ∈ store.map Prod.fst
  · rw [if_pos h]
    exact h
  · rw [if_neg h]
    simp

theorem upsert_mem_mono (store : List (String × CgRecord)) (url : String) (r : CgRecord)
    (v : String) (hv : v ∈ store.map Prod.fst) :
    v ∈ (upsertIfAbsent store url r).map Prod.fst := by
  unfold upsertIfAbsent
  by_cases h : url ∈ store.map Prod.fst
  · rw [if_pos h]
    exact hv
  · rw [if_neg h]
    simp only [List.map_append]
    exact List.mem_append_left _ hv

theorem processUrl_existing_mono (pages : String → Except Unit CgPage)
    (st : IngestState) (u v : String) (hv : v ∈ st.existing) :
    v ∈ (processUrl pages st u).existing := by
  unfold processUrl
  by_cases h : u ∈ st.existing
  · rw [if_pos h]
    exact hv
  · rw [if_neg h]
    cases fetchParse pages u with
    | error e => exact hv
    | ok r => exact List.mem_cons_of_mem u hv

theorem processUrl_inv (pages : String → Except Unit CgPage)
    (st : IngestState) (u : String) (hst : KnownInv st) :
    KnownInv (processUrl pages st u) := by
  unfold processUrl
  by_cases h : u ∈ st.existing
  · rw [if_pos h]
    exact hst
  · rw [if_neg h]
    cases fetchParse pages u with
    | error e => exact hst
    | ok r =>
        intro v hv
        rcases List.mem_cons.mp hv with rfl | hv
        · exact upsert_mem_self st.store v r
        · exact upsert_mem_mono st.store u r v (hst v hv)

theorem processUrl_mem (pages : String → Except Unit CgPage)
    (st : IngestState) (u : String) (hok : exOk (fetchParse pages u) = true) :
    u ∈ (processUrl pages st u).existing := by
  unfold processUrl
  by_cases h : u ∈ st.existing
  · rw [if_pos h]
    exact h
  · rw [if_neg h]
    cases hf : fetchParse pages u with
    | error e =>
        rw [hf] at hok
        exact absurd hok (by simp [exOk])
    | ok r => exact List.mem_cons_self u st.existing

theorem foldl_processUrl_existing_mono (pages : String → Except Unit CgPage) :
    ∀ (links : List String) (st : IngestState) (v : String), v ∈ st.existing →
      v ∈ (links.foldl (processUrl pages) st).existing := by
  intro links
  induction links with
  | nil => intro st v hv; exact hv
  | cons a as ih =>
      intro st v hv
      exact ih _ v (processUrl_existing_mono pages st a v hv)

theorem foldl_processUrl_inv (pages : String → Except Unit CgPage) :
    ∀ (links : List String) (st : IngestState), KnownInv st →
      KnownInv (links.foldl (processUrl pages) st) := by
  intro links
  induction links with
  | nil => intro st h; exact h
  | cons a as ih => intro st h; exact ih _ (processUrl_inv pages st a h)

theorem foldl_processUrl_mem (pages : String → Except Unit CgPage) :
    ∀ (links : List String) (st : IngestState) (u : String), u ∈ links →
      exOk (fetchParse pages u) = true →
      u ∈ (links.foldl (processUrl pages) st).existing := by
  intro links
  induction links with
  | nil =>
      intro st u hu _
      exact absurd hu (List.not_mem_nil u)
  | cons a as ih =>
      intro st u hu hok
      rcases List.mem_cons.mp hu with rfl | hu
      · exact foldl_processUrl_existing_mono pages as _ u (processUrl_mem pages st u hok)
      · exact ih _ u hu hok

theorem sections_existing_mono (pages : String → Except Unit CgPage) (limit : Option Int) :
    ∀ (sections : List (List String)) (st : IngestState) (v : String), v ∈ st.existing →
      v ∈ (sections.foldl (sectionStep pages limit) st).existing := by
  intro sections
  induction sections with
  | nil => intro st v hv; exact hv
  | cons l ls ih =>
      intro st v hv
      exact ih _ v (foldl_processUrl_existing_mono pages (applyLimit limit l) st v hv)

theorem sections_inv (pages : String → Except Unit CgPage) (limit : Option Int) :
    ∀ (sections : List (List String)) (st : IngestState), KnownInv st →
      KnownInv (sections.foldl (sectionStep pages limit) st) := by
  intro sections
  induction sections with
  | nil => intro st h; exact h
  | cons l ls ih =>
      intro st h
      exact ih _ (foldl_processUrl_inv pages (applyLimit limit l) st h)

theorem sections_mem (pages : String → Except Unit CgPage) (limit : Option Int)
    (sections : List (List String)) (st : IngestState) (links : List String) (u : String)
    (hl : links ∈ sections) (hu : u ∈ applyLimit limit links)
    (hok : exOk (fetchParse pages u) = true) :
    u ∈ (sections.foldl (sectionStep pages limit) st).existing := by
  obtain ⟨s1, s2, rfl⟩ := List.append_of_mem hl
  rw [List.foldl_append]
  simp only [List.foldl_cons]
  apply sections_existing_mono pages limit s2
  exact foldl_processUrl_mem pages (applyLimit limit links) _ u hu hok

/-- Claim C5: in a fresh-ingest batch run, a fetch or parse failure on one
article only skips that article: every item whose fetch-and-parse succeeds
ends up persisted in the store, whatever other items do.  (No exception
escapes the batch loop: `mainRun` is a total function — the per-article
`except` absorbs both failure modes.) -/
theorem claim5_batch (sections : List (List String)) (pages : String → Except Unit CgPage)
    (store0 : List (String × CgRecord)) (limit : Option Int) (links : List String)
    (u : String) (hl : links ∈ sections) (hu : u ∈ applyLimit limit links)
    (hok : exOk (fetchParse pages u) = true) :
    u ∈ (mainRun sections pages store0 limit).1.map Prod.fst := by
  unfold mainRun
  set st0 : IngestState :=
    { store := store0, existing := store0.map Prod.fst, newCount := 0 } with hst0
  have hinv : KnownInv (sections.foldl (sectionStep pages limit) st0) := by
    apply sections_inv
    intro v hv
    exact hv
  exact hinv u (sections_mem pages limit sections st0 links u hl hu hok)

/-- Witness for C5: a two-article batch whose first article fails to fetch;
the second is still persisted. -/
theorem claim5_witness :
    "https://www.capitalgazette.com/2024/01/02/bb/" ∈
      (mainRun [["https://www.capitalgazette.com/2024/01/02/aa/",
                 "https://www.capitalgazette.com/2024/01/02/bb/"]]
        (fun u => if u = "https://www.capitalgazette.com/2024/01/02/bb/" then
            .ok ⟨some "B", ["Text here"], [], [], none, 0⟩
          else .error ())
        [] none).1.map Prod.fst :=
  claim5_batch
    [["https://www.capitalgazette.com/2024/01/02/aa/",
      "https://www.capitalgazette.com/2024/01/02/bb/"]]
    (fun u => if u = "https://www.capitalgazette.com/2024/01/02/bb/" then
        .ok ⟨some "B", ["Text here"], [], [], none, 0⟩
      else .error ())
    [] none
    ["https://www.capitalgazette.com/2024/01/02/aa/",
     "https://www.capitalgazette.com/2024/01/02/bb/"]
    "https://www.capitalgazette.com/2024/01/02/bb/"
    (by decide) (by decide) (by decide)

theorem foldl_processUrl_id (pages : String → Except Unit CgPage) :
    ∀ (links : List String) (st : IngestState),
      (∀ v ∈ links, v ∈ st.existing ∨ exOk (fetchParse pages v) = false) →
      links.foldl (processUrl pages) st = st := by
  intro links
  induction links with
  | nil => intro st _; rfl
  | cons a as ih =>
      intro st h
      have hstep : processUrl pages st a = st := by
        unfold processUrl
        by_cases hm : a ∈ st.existing
        · rw [if_pos hm]
        · rw [if_neg hm]
          rcases h a (List.mem_cons_self a as) with hma | hf
          · exact absurd hma hm
          · cases hfp : fetchParse pages a with
            | error e => rfl
            | ok r =>
                rw [hfp] at hf
                exact absurd hf (by simp [exOk])
      simp only [List.foldl_cons, hstep]
      exact ih st (fun v hv => h v (List.mem_cons_of_mem a hv))

theorem sections_foldl_id (pages : String → Except Unit CgPage) (limit : Option Int) :
    ∀ (sections : List (List String)) (st : IngestState),
      (∀ links ∈ sections, ∀ v ∈ applyLimit limit links,
        v ∈ st.existing ∨ exOk (fetchParse pages v) = false) →
      sections.foldl (sectionStep pages limit) st = st := by
  intro sections
  induction sections with
  | nil => intro st _; rfl
  | cons l ls ih =>
      intro st h
      have hstep : sectionStep pages limit st l = st :=
        foldl_processUrl_id pages (applyLimit limit l) st
          (h l (List.mem_cons_self l ls))
      simp only [List.foldl_cons, hstep]
      exact ih st (fun links hl => h links (List.mem_cons_of_mem l hl))

/-- Claim C8: fresh ingest is idempotent on URL identity — running the run a
second time against the unchanged listing lists, unchanged pages and the
store produced by the first run inserts zero new records, because every URL
either is already in the store (and is skipped via the known-URL set seeded
from it) or fails again exactly as before. -/
theorem claim8_idempotent (sections : List (List String))
    (pages : String → Except Unit CgPage) (store0 : List (String × CgRecord))
    (limit : Option Int) :
    (mainRun sections pages (mainRun sections pages store0 limit).1 limit).2 = 0 := by
  unfold mainRun
  set st0 : IngestState :=
    { store := store0, existing := store0.map Prod.fst, newCount := 0 } with hst0
  set st1 : IngestState := sections.foldl (sectionStep pages limit) st0 with hst1
  set st2 : IngestState :=
    { store := st1.store, existing := st1.store.map Prod.fst, newCount := 0 } with hst2
  have hinv1 : KnownInv st1 := by
    rw [hst1]
    apply sections_inv
    intro v hv
    exact hv
  have hid : sections.foldl (sectionStep pages limit) st2 = st2 := by
    apply sections_foldl_id
    intro links hl v hv
    cases hok : exOk (fetchParse pages v) with
    | false => exact Or.inr rfl
    | true =>
        left
        show v ∈ st1.store.map Prod.fst
        apply hinv1
        rw [hst1]
        exact sections_mem pages limit sections st0 links v hl hv hok
  rw [hid]

/-! ## Backfill driver lemmas and claim C9 -/

theorem backfillStep_map (pages : String → Except Unit (List String))
    (rows : List StoredRow) (p : Nat × String) :
    backfillStep pages rows p = rows.map (fun r => applyPair pages r p) := by
  unfold backfillStep applyPair patchLinks
  cases backfillDerive pages p.2 with
  | error e => simp
  | ok ie => rfl

theorem foldl_backfillStep_map (pages : String → Except Unit (List String)) :
    ∀ (pairs : List (Nat × String)) (rows : List StoredRow),
      pairs.foldl (backfillStep pages) rows =
        rows.map (fun r => pairs.foldl (applyPair pages) r) := by
  intro pairs
  induction pairs with
  | nil => intro rows; simp
  | cons p ps ih =>
      intro rows
      simp only [List.foldl_cons]
      rw [backfillStep_map, ih, List.map_map]
      rfl

theorem applyPair_of_ne (pages : String → Except Unit (List String))
    (r : StoredRow) (p : Nat × String) (h : r.id ≠ p.1) :
    applyPair pages r p = r := by
  unfold applyPair
  cases backfillDerive pages p.2 with
  | error e => rfl
  | ok ie => simp [h]

theorem foldl_applyPair_of_notmem (pages : String → Except Unit (List String)) :
    ∀ (pairs : List (Nat × String)) (r : StoredRow), r.id ∉ pairs.map Prod.fst →
      pairs.foldl (applyPair pages) r = r := by
  intro pairs
  induction pairs with
  | nil => intro r _; rfl
  | cons p ps ih =>
      intro r h
      simp only [List.map_cons, List.mem_cons] at h
      push_neg at h
      obtain ⟨h1, h2⟩ := h
      simp only [List.foldl_cons, applyPair_of_ne pages r p h1]
      exact ih r h2

theorem applyPair_self (pages : String → Except Unit (List String)) (r : StoredRow) :
    applyPair pages r (r.id, r.url) = backfillPatchRow pages r := by
  unfold applyPair backfillPatchRow
  cases backfillDerive pages r.url with
  | error e => rfl
  | ok ie => simp

theorem backfillPatchRow_id (pages : String → Except Unit (List String)) (r : StoredRow) :
    (backfillPatchRow pages r).id = r.id := by
  unfold backfillPatchRow
  cases backfillDerive pages r.url with
  | error e => rfl
  | ok ie => rfl

/-- Claim C9: a backfill run maps each stored row (rows keyed by distinct
ids, as the store's primary key guarantees) to the same row with only its
`internal_links` and `external_links` columns replaced by the freshly derived
values (or left as they were when fetching or deriving fails) — every other
field, in particular `headline` and `article_text`, is unchanged. -/
theorem claim9_patch (pages : String → Except Unit (List String)) (rows0 : List StoredRow)
    (hids : (rows0.map StoredRow.id).Nodup) :
    backfillRun pages rows0 = rows0.map (backfillPatchRow pages) ∧
    ∀ r : StoredRow,
      (backfillPatchRow pages r).id = r.id ∧
      (backfillPatchRow pages r).url = r.url ∧
      (backfillPatchRow pages r).sectionLabel = r.sectionLabel ∧
      (backfillPatchRow pages r).headline = r.headline ∧
      (backfillPatchRow pages r).article_text = r.article_text ∧
      (backfillPatchRow pages r).word_count = r.word_count ∧
      ∀ ie, backfillDerive pages r.url = .ok ie →
        (backfillPatchRow pages r).internal_links = ie.1 ∧
        (backfillPatchRow pages r).external_links = ie.2 := by
  constructor
  · unfold backfillRun
    rw [foldl_backfillStep_map]
    apply List.map_congr_left
    intro r hr
    obtain ⟨l1, l2, rfl⟩ := List.append_of_mem hr
    have hids' : (l1.map StoredRow.id ++ r.id :: l2.map StoredRow.id).Nodup := by
      simpa using hids
    rw [List.nodup_append] at hids'
    obtain ⟨_, h2, h3⟩ := hids'
    have hnot1 : r.id ∉ l1.map StoredRow.id :=
      fun hm => h3 hm (List.mem_cons_self _ _)
    have hnot2 : r.id ∉ l2.map StoredRow.id := (List.nodup_cons.mp h2).1
    have hpairs : (l1 ++ r :: l2).map (fun x => (x.id, x.url)) =
        l1.map (fun x => (x.id, x.url)) ++
          (r.id, r.url) :: l2.map (fun x => (x.id, x.url)) := by
      simp
    rw [hpairs, List.foldl_append, List.foldl_cons]
    rw [foldl_applyPair_of_notmem pages _ r (by simpa [List.map_map] using hnot1)]
    rw [applyPair_self]
    apply foldl_applyPair_of_notmem
    simpa [List.map_map, backfillPatchRow_id] using hnot2
  · intro r
    unfold backfillPatchRow
    cases hd : backfillDerive pages r.url with
    | error e =>
        refine ⟨rfl, rfl, rfl, rfl, rfl, rfl, ?_⟩
        intro ie hie
        exact Except.noConfusion hie
    | ok ie0 =>
        refine ⟨rfl, rfl, rfl, rfl, rfl, rfl, ?_⟩
        intro ie hie
        injection hie with h1
        rw [← h1]
        exact ⟨rfl, rfl⟩

/-- Witness for C9 on the spec's section 8 example: a stored row with stale
counts `(0, 0)` and a live page with three internal and two external links is
patched to `(3, 2)` with headline and body text untouched. -/
theorem claim9_witness :
    backfillRun
      (fun _ => .ok ["/a", "/b", "local.html", "https://ext1.example/x",
        "https://ext2.example/y"])
      [⟨1, "https://site.example/art/", "news", "Headline", "Body text", 2, 0, 0⟩] =
      [⟨1, "https://site.example/art/", "news", "Headline", "Body text", 2, 3, 2⟩] := by
  have h := (claim9_patch
    (fun _ => .ok ["/a", "/b", "local.html", "https://ext1.example/x",
      "https://ext2.example/y"])
    [⟨1, "https://site.example/art/", "news", "Headline", "Body text", 2, 0, 0⟩]
    (by decide)).1
  rw [h]
  decide

end NewsScraper
